import Mathlib

/-!
Verification of the kimi-chat knowledge cache and session manager
(`module/kimi_api/knowledge/kimi_cache_man.py` and
`module/kimi_api/knowledge/kimi_session_man.py`).

The SQLite table `file_cache` is modelled as a list of records keyed by
`file_hash`; `INSERT OR REPLACE` removes every row with the conflicting key
and appends the new row, `DELETE WHERE file_hash = ?` filters the key out.
JSON (de)serialization of the message column is lossless for the three
fields `role`/`content`/`expired_time`, so the column is modelled as the
message list itself and `_deserialize_messages` as the expiry filter it
performs.  The filesystem (`os.path.exists`, MD5 over the file bytes) and
the ingestion collaborator (`kimi_upload_file.upload_files`) are external
oracles, passed in as function arguments; `int(time.time())` is the `now`
argument.  Each public cache method acquires the instance's
non-reentrant `threading.Lock` on entry; methods are embedded at
lock-free entry (as all external call sites call them), and an internal
call made while the lock is held is embedded through `LockResult`, where
acquiring the already-held lock is the `deadlock` outcome.
-/

namespace Kimi

/-- The `CacheMessage` dataclass of `kimi_cache_man.py`. -/
structure CacheMessage where
  role : String
  content : String
  expired_time : Option Int
deriving DecidableEq, Repr

/-- `CacheMessage.is_expired`: no `expired_time` means never expired,
otherwise expired iff `int(time.time()) > expired_time` (strict). -/
def CacheMessage.is_expired (m : CacheMessage) (now : Int) : Bool :=
  match m.expired_time with
  | none => false
  | some t => now > t

/-- `KimiCacheMan._deserialize_messages`: rebuild the message list from the
stored column, dropping every message whose `is_expired` is true. -/
def deserialize_messages (now : Int) (messages : List CacheMessage) : List CacheMessage :=
  messages.filter (fun m => !(m.is_expired now))

/-- One row of the `file_cache` table. -/
structure FileCacheRecord where
  file_hash : String
  file_path : String
  messages : List CacheMessage
  cache_tag : Option String
  cache_expired_time : Option Int
  cache_message : Option String
  create_time : Int
  update_time : Int
deriving DecidableEq, Repr

/-- The `file_cache` table. -/
abbrev Db := List FileCacheRecord

/-- `SELECT ... FROM file_cache WHERE file_hash = ?` followed by `fetchone()`. -/
def Db.find (db : Db) (file_hash : String) : Option FileCacheRecord :=
  db.find? (fun r => r.file_hash == file_hash)

/-- `KimiCacheMan.insert_cache`: `INSERT OR REPLACE` keyed by `file_hash`,
with `create_time = update_time = int(time.time())`. -/
def insert_cache (db : Db) (file_hash file_path : String) (messages : List CacheMessage)
    (cache_tag : Option String) (expired_time : Option Int) (cache_message : Option String)
    (now : Int) : Db :=
  db.filter (fun r => r.file_hash != file_hash) ++
    [{ file_hash := file_hash, file_path := file_path, messages := messages,
       cache_tag := cache_tag, cache_expired_time := expired_time,
       cache_message := cache_message, create_time := now, update_time := now }]

/-- The filesystem oracle: `os.path.exists` and the MD5 content hash
(`KimiCacheMan._calculate_file_hash`) of a readable file. -/
structure Fs where
  path_exists : String → Bool
  hash : String → String

/-- The Python test `if row[k] and current_time > row[k]` on the
`cache_expired_time` column: `NULL` and `0` are falsy, otherwise the
record-level expiry has passed iff `now` is strictly greater. -/
def record_expiry_passed (cache_expired_time : Option Int) (now : Int) : Bool :=
  match cache_expired_time with
  | none => false
  | some t => t != 0 && now > t

/-- The dynamically-typed value `KimiCacheMan.get_cache` returns: `None`
when the file path does not exist, the literal error string when the
ingestion collaborator produced nothing, or a list of messages. -/
inductive GetCacheResult where
  | noFile
  | failure (message : String)
  | msgs (messages : List CacheMessage)
deriving DecidableEq, Repr

/-- Python truthiness of a `get_cache` result (`if cache:`): `None` is
falsy, a string is truthy iff nonempty, a list is truthy iff nonempty. -/
def GetCacheResult.truthy : GetCacheResult → Bool
  | .noFile => false
  | .failure s => !s.isEmpty
  | .msgs l => !l.isEmpty

/-- `KimiCacheMan.get_cache`.  On a hit the source compares
`current_time > cache_expired_time` but only logs a warning in that case
and still returns the deserialized messages, so the embedded hit path is
unconditional.  On a row miss it calls the ingestion collaborator
(`upload`); an empty result returns the error string and writes nothing,
otherwise the messages are inserted with no expiry and returned. -/
def get_cache (fs : Fs) (upload : String → List CacheMessage) (now : Int)
    (db : Db) (file_path : String) : GetCacheResult × Db :=
  if fs.path_exists file_path then
    let file_hash := fs.hash file_path
    match Db.find db file_hash with
    | some row => (.msgs (deserialize_messages now row.messages), db)
    | none =>
      let messages := upload file_path
      if messages.isEmpty then (.failure "上传知识库文件失败", db)
      else (.msgs messages, insert_cache db file_hash file_path messages none none none now)
  else (.noFile, db)

/-- `KimiCacheMan.set_cache`: `expired_time = current_time + expire_seconds
if expire_seconds else None` (so both `None` and `0` leave it unset),
then an upsert through `insert_cache`. -/
def set_cache (fs : Fs) (now : Int) (db : Db) (file_path : String)
    (messages : List CacheMessage) (cache_tag : Option String)
    (expire_seconds : Option Int) (cache_message : Option String) : Db :=
  let file_hash := fs.hash file_path
  let expired_time : Option Int :=
    match expire_seconds with
    | none => none
    | some s => if s != 0 then some (now + s) else none
  insert_cache db file_hash file_path messages cache_tag expired_time cache_message now

/-- Result of an operation that may try to re-acquire the cache
instance's non-reentrant `threading.Lock` while it is already held. -/
inductive LockResult (α : Type) where
  | deadlock
  | ok (value : α)
deriving DecidableEq, Repr

/-- `DELETE FROM file_cache WHERE file_hash = ?`. -/
def delete_by_hash (db : Db) (file_hash : String) : Db :=
  db.filter (fun r => r.file_hash != file_hash)

/-- `KimiCacheMan.remove_cache`: acquires `self.lock` and deletes the row.
`lock_held` records whether the caller already holds the instance lock;
`threading.Lock` is not reentrant, so acquiring it again blocks forever. -/
def remove_cache (lock_held : Bool) (db : Db) (file_hash : String) : LockResult Db :=
  if lock_held then .deadlock else .ok (delete_by_hash db file_hash)

/-- The row dictionary built by `get_cache_info` / `get_cache_by_tag`:
all stored columns, with the message column deserialized (expired
messages filtered out). -/
def record_view (now : Int) (r : FileCacheRecord) : FileCacheRecord :=
  { r with messages := deserialize_messages now r.messages }

/-- `KimiCacheMan.get_cache_by_tag`: `SELECT * WHERE cache_tag = ?`,
each row returned with its messages deserialized.  Read-only. -/
def get_cache_by_tag (now : Int) (db : Db) (cache_tag : String) : List FileCacheRecord :=
  (db.filter (fun r => r.cache_tag == some cache_tag)).map (record_view now)

/-- `KimiCacheMan.get_cache_info`.  When the record-level expiry has
passed it calls `self.remove_cache` while still holding `self.lock`;
`remove_cache` then tries to acquire the same non-reentrant lock, which
is the `deadlock` outcome. -/
def get_cache_info (fs : Fs) (now : Int) (db : Db) (file_path : String) :
    LockResult (Option FileCacheRecord × Db) :=
  if fs.path_exists file_path then
    let file_hash := fs.hash file_path
    match Db.find db file_hash with
    | none => .ok (none, db)
    | some row =>
      if record_expiry_passed row.cache_expired_time now then
        match remove_cache true db file_hash with
        | .deadlock => .deadlock
        | .ok db2 => .ok (none, db2)
      else .ok (some (record_view now row), db)
  else .ok (none, db)

/-- `KimiCacheMan.refresh_cache`: recompute the hash; if no row exists
return `False` leaving the table unchanged, otherwise
`UPDATE file_cache SET cache_expired_time = now + extend_seconds,
update_time = now WHERE file_hash = ?` and return `True`. -/
def refresh_cache (fs : Fs) (now : Int) (db : Db) (file_path : String)
    (extend_seconds : Int) : Bool × Db :=
  let file_hash := fs.hash file_path
  match Db.find db file_hash with
  | none => (false, db)
  | some _ =>
    (true, db.map (fun r =>
      if r.file_hash == file_hash then
        { r with cache_expired_time := some (now + extend_seconds), update_time := now }
      else r))

/-- One entry of a session's message history
(`kimi_session_man.py`); the `timestamp` key is optional because the
seeding messages built in `get_session` carry no timestamp. -/
structure SessionMsg where
  role : String
  content : String
  timestamp : Option Int
deriving DecidableEq, Repr

/-- The `Session` dataclass; the `context` mapping is modelled as an
association list of string keys and values (no verified operation reads
a context value). -/
structure Session where
  user_id : String
  messages : List SessionMsg
  cache_hit_count : Nat
  cache_miss_count : Nat
  last_active_time : Int
  context : List (String × String)
deriving DecidableEq, Repr

/-- `Session.get_cache_hit_rate`: exact-arithmetic model of
`self.cache_hit_count / total if total > 0 else 0`. -/
def Session.get_cache_hit_rate (s : Session) : ℚ :=
  let total := s.cache_hit_count + s.cache_miss_count
  if total > 0 then (s.cache_hit_count : ℚ) / (total : ℚ) else 0

/-- The scan inside `KimiSessionMan._deduplicate_messages`: walk the
list keeping the first occurrence of each content string not yet seen
(the source walks `reversed(other_messages)` and tracks `seen_contents`). -/
def dedup_loop : List SessionMsg → List String → List SessionMsg
  | [], _ => []
  | m :: rest, seen =>
    if m.content ∈ seen then dedup_loop rest seen
    else m :: dedup_loop rest (m.content :: seen)

/-- `KimiSessionMan._deduplicate_messages`: split off system-role
messages, deduplicate the rest by content keeping the most recent
occurrence (scan the reversed list, then reverse back), and return
`system ++ unique` with the number of dropped duplicates. -/
def deduplicate_messages (messages : List SessionMsg) : List SessionMsg × Nat :=
  let system_messages := messages.filter (fun m => m.role == "system")
  let other_messages := messages.filter (fun m => m.role != "system")
  let unique_messages := (dedup_loop other_messages.reverse []).reverse
  (system_messages ++ unique_messages, other_messages.length - unique_messages.length)

/-- Number of messages in `l` whose content is `c`. -/
def count_content (l : List SessionMsg) (c : String) : Nat :=
  (l.filter (fun m => m.content == c)).length

/-- Python `l[-n:]` for `n > 0`: the last `min n (length l)` elements. -/
def take_last (n : Nat) (l : List SessionMsg) : List SessionMsg :=
  l.drop (l.length - n)

/-- The per-session body of `KimiSessionMan.clear_expired_sessions`:
deduplicate, then, if the deduplicated list still exceeds
`max_messages`, keep all system messages plus the last
`max_messages - len(system)` non-system messages (none when that
difference is not positive).  Returns the new message list and the
total number of messages removed (duplicates plus truncated). -/
def clean_session_messages (max_messages : Nat) (messages : List SessionMsg) :
    List SessionMsg × Nat :=
  let deduped := (deduplicate_messages messages).1
  let duplicates_removed := (deduplicate_messages messages).2
  if deduped.length > max_messages then
    let system_messages := deduped.filter (fun m => m.role == "system")
    let other_messages := deduped.filter (fun m => m.role != "system")
    let keep_count : Int := (max_messages : Int) - system_messages.length
    let kept_messages :=
      if keep_count > 0 then take_last keep_count.toNat other_messages else []
    let truncated_count :=
      deduped.length - (system_messages.length + kept_messages.length)
    (system_messages ++ kept_messages, duplicates_removed + truncated_count)
  else (deduped, duplicates_removed)

/-- `KimiSessionMan.clear_expired_sessions` over the in-memory session
table: sessions idle longer than `expire_seconds` are dropped and
counted; every other session has its message list rewritten by
`clean_session_messages`.  Returns the new table, the number of expired
sessions and the number of cleaned messages.  (The durable snapshot
writes and snapshot-file deletions the source performs are filesystem
effects outside the model.) -/
def clear_expired_sessions (now expire_seconds : Int) (max_messages : Nat) :
    List (String × Session) → List (String × Session) × Nat × Nat
  | [] => ([], 0, 0)
  | p :: rest =>
    let r := clear_expired_sessions now expire_seconds max_messages rest
    if now - p.2.last_active_time > expire_seconds then
      (r.1, r.2.1 + 1, r.2.2)
    else
      ((p.1, { p.2 with messages := (clean_session_messages max_messages p.2.messages).1 })
          :: r.1,
        r.2.1, r.2.2 + (clean_session_messages max_messages p.2.messages).2)

/-- The mutable state of `KimiSessionMan` relevant to the claims: the
in-memory session table, the cache table it owns through
`KimiCacheMan`, and `_last_cleanup`. -/
structure SessionManState where
  sessions : List (String × Session)
  db : Db
  last_cleanup : Int
deriving DecidableEq, Repr

/-- `self.sessions[user_id]` lookup (`user_id in self.sessions`). -/
def lookup_session (sessions : List (String × Session)) (user_id : String) : Option Session :=
  match sessions.find? (fun p => p.1 == user_id) with
  | none => none
  | some p => some p.2

/-- In-place mutation of the session object stored under `user_id`
(Python mutates the shared object held in the dict). -/
def update_session (sessions : List (String × Session)) (user_id : String) (s : Session) :
    List (String × Session) :=
  sessions.map (fun p => if p.1 == user_id then (p.1, s) else p)

/-- Result of a session-manager call: the Python return value, or the
exception that aborted it, together with the state as left behind. -/
inductive StResult (α : Type) where
  | ok (value : α) (st : SessionManState)
  | exn (err : String) (st : SessionManState)
deriving DecidableEq, Repr

/-- The exception (if any) a call ended with. -/
def StResult.errOf {α : Type} : StResult α → Option String
  | .ok _ _ => none
  | .exn e _ => some e

/-- The state a call left behind. -/
def StResult.stateOf {α : Type} : StResult α → SessionManState
  | .ok _ st => st
  | .exn _ st => st

/-- The opportunistic-maintenance prologue of
`KimiSessionMan.get_session`: when more than 3600 seconds have elapsed
since `_last_cleanup`, run `clear_expired_sessions` with its default
arguments (3 days, 300 messages) and reset the clock. -/
def maybe_cleanup (now : Int) (st : SessionManState) : SessionManState :=
  if now - st.last_cleanup > 3600 then
    { st with
      sessions := (clear_expired_sessions now (3 * 24 * 3600) 300 st.sessions).1,
      last_cleanup := now }
  else st

/-- Session creation inside `KimiSessionMan.get_session`: a fresh
`Session` with the seeding messages, zero counters, `last_active_time`
set on construction, empty context; it is stored in the table and
returned with `is_new = True`. -/
def create_session (now : Int) (st : SessionManState) (user_id : String)
    (initial : List SessionMsg) : StResult (Session × Bool) :=
  let s : Session :=
    { user_id := user_id, messages := initial, cache_hit_count := 0,
      cache_miss_count := 0, last_active_time := now, context := [] }
  .ok (s, true) { st with sessions := st.sessions ++ [(user_id, s)] }

/-- `KimiSessionMan.get_session`.  An existing session is returned as
is.  Otherwise the knowledge file is pulled through
`KimiCacheMan.get_cache` and the new session is seeded with one
system message holding `character_desc` followed by the role/content of
each returned cache message.  When `get_cache` returns its (truthy,
nonempty) error string, the source iterates over the string and reads
`.role` on a character, raising `AttributeError`. -/
def get_session (fs : Fs) (upload : String → List CacheMessage)
    (knowledge_file character_desc : String) (now : Int)
    (st : SessionManState) (user_id : String) : StResult (Session × Bool) :=
  let st1 := maybe_cleanup now st
  match lookup_session st1.sessions user_id with
  | some s => .ok (s, false) st1
  | none =>
    let res := get_cache fs upload now st1.db knowledge_file
    let st2 := { st1 with db := res.2 }
    let head : SessionMsg := { role := "system", content := character_desc, timestamp := none }
    match res.1 with
    | .noFile => create_session now st2 user_id [head]
    | .failure s =>
      if s.isEmpty then create_session now st2 user_id [head]
      else .exn "AttributeError: str object has no attribute role" st2
    | .msgs l =>
      create_session now st2 user_id
        (head :: l.map (fun m => { role := m.role, content := m.content, timestamp := none }))

/-- `KimiSessionMan.add_temp_knowledge`.  On a truthy cache result it
increments `cache_hit_count`, refreshes the cache with twice
`expire_seconds` when the hit rate exceeds 0.8, and then evaluates
`cache.get(...)` — an attribute lookup on a list (or on the error
string), which raises `AttributeError`.  On a falsy result it
increments `cache_miss_count` and calls `self.cache_man.set_cache` with
the keyword arguments `file_id` and `message`, which
`KimiCacheMan.set_cache` does not accept, raising `TypeError` before
any cache write. -/
def add_temp_knowledge (fs : Fs) (upload : String → List CacheMessage)
    (knowledge_file character_desc : String) (now : Int)
    (st : SessionManState) (user_id file_path : String)
    (expire_seconds : Int) : StResult (Option String) :=
  match get_session fs upload knowledge_file character_desc now st user_id with
  | .exn e st1 => .exn e st1
  | .ok (s, _) st1 =>
    let res := get_cache fs upload now st1.db file_path
    let st2 := { st1 with db := res.2 }
    if res.1.truthy then
      let s2 := { s with cache_hit_count := s.cache_hit_count + 1 }
      let st3 := { st2 with sessions := update_session st2.sessions user_id s2 }
      let st4 :=
        if s2.get_cache_hit_rate > (4 / 5 : ℚ) then
          { st3 with db := (refresh_cache fs now st3.db file_path (expire_seconds * 2)).2 }
        else st3
      match res.1 with
      | .msgs _ => .exn "AttributeError: list object has no attribute get" st4
      | _ => .exn "AttributeError: str object has no attribute get" st4
    else
      let s2 := { s with cache_miss_count := s.cache_miss_count + 1 }
      let st3 := { st2 with sessions := update_session st2.sessions user_id s2 }
      .exn "TypeError: set_cache got an unexpected keyword argument file_id" st3

/-! Concrete fixtures used to evaluate the embedded operations. -/

/-- A filesystem on which only `"f"` exists; every path hashes to `"h"`. -/
def fs1 : Fs := { path_exists := fun p => p == "f", hash := fun _ => "h" }

/-- An ingestion collaborator that never produces content. -/
def up0 : String → List CacheMessage := fun _ => []

/-- A never-expiring knowledge message. -/
def m1 : CacheMessage := { role := "system", content := "knowledge", expired_time := none }

/-- A cached record for `"f"` whose whole-record expiry is 100. -/
def rec1 : FileCacheRecord :=
  { file_hash := "h", file_path := "f", messages := [m1], cache_tag := none,
    cache_expired_time := some 100, cache_message := none,
    create_time := 50, update_time := 50 }

/-- A table holding only `rec1`. -/
def db1 : Db := [rec1]

/-- A message with no per-message expiry. -/
def m_live : CacheMessage := { role := "assistant", content := "live", expired_time := none }

/-- A message whose per-message expiry (10) is in the past at read time 50. -/
def m_dead : CacheMessage := { role := "assistant", content := "dead", expired_time := some 10 }

/-- A tagged, never-expiring record containing one live and one expired message. -/
def rec6 : FileCacheRecord :=
  { file_hash := "h", file_path := "f", messages := [m_live, m_dead],
    cache_tag := some "t", cache_expired_time := none, cache_message := none,
    create_time := 0, update_time := 0 }

/-- A table holding only `rec6`. -/
def db6 : Db := [rec6]

/-- A second record under a different hash, used to check that `refresh`
leaves unrelated rows alone. -/
def rec7 : FileCacheRecord :=
  { file_hash := "h2", file_path := "g", messages := [], cache_tag := none,
    cache_expired_time := some 5, cache_message := none,
    create_time := 0, update_time := 0 }

/-- A table holding `rec1` and `rec7`. -/
def db7 : Db := [rec1, rec7]

/-- A session that never looked anything up. -/
def s_zero : Session :=
  { user_id := "u", messages := [], cache_hit_count := 0, cache_miss_count := 0,
    last_active_time := 0, context := [] }

/-- A session with 3 hits and 1 miss. -/
def s_31 : Session :=
  { user_id := "u", messages := [], cache_hit_count := 3, cache_miss_count := 1,
    last_active_time := 0, context := [] }

/-- A session message with the given role and content and no timestamp. -/
def msg (role content : String) : SessionMsg :=
  { role := role, content := content, timestamp := none }

/-- A message list with one system message and a duplicated non-system
content (the two `"a"` messages differ in their timestamps). -/
def ms4 : List SessionMsg :=
  [msg "system" "sys",
   { role := "user", content := "a", timestamp := some 1 },
   { role := "user", content := "b", timestamp := some 2 },
   { role := "user", content := "a", timestamp := some 3 },
   { role := "user", content := "c", timestamp := some 4 }]

/-- A session with 2 system messages and 10 duplicate-free non-system
messages, for the `maxMessages = 5` truncation scenario. -/
def s5 : Session :=
  { user_id := "u",
    messages :=
      [msg "system" "s1", msg "system" "s2",
       msg "user" "n1", msg "user" "n2", msg "user" "n3", msg "user" "n4",
       msg "user" "n5", msg "user" "n6", msg "user" "n7", msg "user" "n8",
       msg "user" "n9", msg "user" "n10"],
    cache_hit_count := 0, cache_miss_count := 0, last_active_time := 0, context := [] }

/-- A fresh session for user `"u"`, active at time 900. -/
def s3 : Session :=
  { user_id := "u", messages := [], cache_hit_count := 0, cache_miss_count := 0,
    last_active_time := 900, context := [] }

/-- Session-manager state at time 1000: user `"u"` present, `db1` as the
cache table, cleanup clock just reset. -/
def st3 : SessionManState :=
  { sessions := [("u", s3)], db := db1, last_cleanup := 1000 }

/-! Theorems. -/

/-- An upsert through `insert_cache` is found under its key, and the
stored row is exactly the row built from the arguments. -/
theorem find_insert_cache (db : Db) (fh fp : String) (msgs : List CacheMessage)
    (tag : Option String) (et : Option Int) (note : Option String) (now : Int) :
    Db.find (insert_cache db fh fp msgs tag et note now) fh
      = some { file_hash := fh, file_path := fp, messages := msgs, cache_tag := tag,
               cache_expired_time := et, cache_message := note,
               create_time := now, update_time := now } := by
  unfold Db.find insert_cache
  rw [List.find?_append]
  have h1 : (db.filter (fun r => r.file_hash != fh)).find? (fun r => r.file_hash == fh)
      = none := by
    rw [List.find?_eq_none]
    intro x hx
    have h2 := (List.mem_filter.mp hx).2
    simp only [bne_iff_ne, ne_eq] at h2
    simp [h2]
  rw [h1]
  simp [List.find?]

/-- C1: the claim says a read at a time `≥ cacheExpiredTime` treats the
record as expired/absent.  The code disagrees twice: `get_cache` at time
101 on a record whose whole-record expiry is 100 merely logs a warning
and still returns the record's messages, contradicting its own
docstring (miss or expired cache returns `None`); and `get_cache_info`
uses a strict comparison, so at time exactly 100 it still returns the
full record as live. -/
theorem get_cache_serves_expired_record :
    record_expiry_passed rec1.cache_expired_time 101 = true
    ∧ get_cache fs1 up0 101 db1 "f" = (.msgs [m1], db1)
    ∧ get_cache_info fs1 100 db1 "f" = .ok (some (record_view 100 rec1), db1) := by
  refine ⟨by decide, by decide, by decide⟩

/-- C2: reading an expired record through `get_cache_info` never
returns: while holding the instance's non-reentrant lock it calls
`remove_cache`, which blocks acquiring the same lock, so the record is
neither deleted nor is absence returned — the call deadlocks. -/
theorem get_cache_info_expired_record_deadlocks :
    record_expiry_passed rec1.cache_expired_time 101 = true
    ∧ get_cache_info fs1 101 db1 "f" = .deadlock := by
  refine ⟨by decide, by decide⟩

/-- C8: on a miss (the file exists, no record is stored under its hash)
where the ingestion collaborator produces no content, `get_cache`
returns the failure string and leaves the cache table unmodified. -/
theorem get_cache_ingestion_failure (fs : Fs) (upload : String → List CacheMessage)
    (now : Int) (db : Db) (file_path : String)
    (hex : fs.path_exists file_path = true)
    (hmiss : Db.find db (fs.hash file_path) = none)
    (hfail : upload file_path = []) :
    get_cache fs upload now db file_path = (.failure "上传知识库文件失败", db) := by
  simp [get_cache, hex, hmiss, hfail]

/-- Witness for C8 on an empty table with an always-failing collaborator. -/
theorem get_cache_ingestion_failure_witness :
    get_cache fs1 up0 7 [] "f" = (.failure "上传知识库文件失败", []) :=
  get_cache_ingestion_failure fs1 up0 7 [] "f" (by decide) rfl rfl

/-- C9: the hit-rate computation is division-guarded: it returns 0 when
both counters are zero and the exact ratio otherwise. -/
theorem get_cache_hit_rate_div_guard (s : Session) :
    (s.cache_hit_count + s.cache_miss_count = 0 → s.get_cache_hit_rate = 0)
    ∧ (0 < s.cache_hit_count + s.cache_miss_count →
        s.get_cache_hit_rate
          = (s.cache_hit_count : ℚ) / ((s.cache_hit_count + s.cache_miss_count : ℕ) : ℚ)) := by
  constructor
  · intro h
    simp [Session.get_cache_hit_rate, h]
  · intro h
    simp [Session.get_cache_hit_rate, h]

/-- Witness for C9: a fresh session has rate 0; 3 hits and 1 miss give 3/4. -/
theorem get_cache_hit_rate_div_guard_witness :
    s_zero.get_cache_hit_rate = 0 ∧ s_31.get_cache_hit_rate = (3 : ℚ) / 4 := by
  constructor
  · exact (get_cache_hit_rate_div_guard s_zero).1 rfl
  · have h := (get_cache_hit_rate_div_guard s_31).2 (by decide)
    rw [h]
    norm_num [s_31]

/-- C10: `set` with `ttlSeconds = 0` stores the record with
`cacheExpiredTime` unset — the same table as when `ttlSeconds` is
omitted — so the record is non-expiring rather than already expired. -/
theorem set_cache_zero_ttl (fs : Fs) (now : Int) (db : Db) (file_path : String)
    (messages : List CacheMessage) (cache_tag : Option String) (note : Option String) :
    set_cache fs now db file_path messages cache_tag (some 0) note
      = set_cache fs now db file_path messages cache_tag none note
    ∧ Db.find (set_cache fs now db file_path messages cache_tag (some 0) note)
        (fs.hash file_path)
      = some { file_hash := fs.hash file_path, file_path := file_path, messages := messages,
               cache_tag := cache_tag, cache_expired_time := none, cache_message := note,
               create_time := now, update_time := now } := by
  constructor
  · rfl
  · exact find_insert_cache db (fs.hash file_path) file_path messages cache_tag none note now

/-- C6: with a record present and its whole-record expiry not passed,
every deserializing read — `get_cache`, `get_cache_info`,
`get_cache_by_tag` — filters per-message-expired messages out of the
returned sequence, and none of them modifies the table, whatever the
per-message expiry times are: per-message expiry alone never deletes
the containing record. -/
theorem per_message_expiry_filtered (fs : Fs) (upload : String → List CacheMessage)
    (now : Int) (db : Db) (file_path : String) (row : FileCacheRecord)
    (hex : fs.path_exists file_path = true)
    (hfind : Db.find db (fs.hash file_path) = some row)
    (hlive : record_expiry_passed row.cache_expired_time now = false) :
    get_cache fs upload now db file_path = (.msgs (deserialize_messages now row.messages), db)
    ∧ get_cache_info fs now db file_path = .ok (some (record_view now row), db)
    ∧ (∀ m ∈ deserialize_messages now row.messages, m.is_expired now = false)
    ∧ (∀ tag r2 m, r2 ∈ get_cache_by_tag now db tag → m ∈ r2.messages →
        m.is_expired now = false) := by
  refine ⟨?_, ?_, ?_, ?_⟩
  · simp [get_cache, hex, hfind]
  · simp [get_cache_info, hex, hfind, hlive]
  · intro m hm
    simp only [deserialize_messages, List.mem_filter] at hm
    simpa using hm.2
  · intro tag r2 m h2 hm
    unfold get_cache_by_tag at h2
    obtain ⟨r0, _hr0, hview⟩ := List.mem_map.mp h2
    subst hview
    simp only [record_view, deserialize_messages, List.mem_filter] at hm
    simpa using hm.2

/-- Witness for C6: at time 50, the record holding one live and one
expired message is served with only the live message. -/
theorem per_message_expiry_filtered_witness :
    get_cache fs1 up0 50 db6 "f" = (.msgs (deserialize_messages 50 rec6.messages), db6)
    ∧ deserialize_messages 50 rec6.messages = [m_live]
    ∧ (record_view 50 rec6).messages = [m_live] := by
  refine ⟨(per_message_expiry_filtered fs1 up0 50 db6 "f" rec6 (by decide) (by decide)
      (by decide)).1, by decide, by decide⟩

/-- Updating the matching rows of the table (the `UPDATE ... WHERE
file_hash = ?` of `refresh_cache`) turns the first row found under the
key into the updated row. -/
theorem find_map_refresh (db : Db) (h : String) (t u : Int) (rec : FileCacheRecord)
    (hfind : Db.find db h = some rec) :
    Db.find (db.map (fun r => if r.file_hash == h then
        { r with cache_expired_time := some t, update_time := u } else r)) h
      = some { rec with cache_expired_time := some t, update_time := u } := by
  have hp : ((fun r : FileCacheRecord => r.file_hash == h)
        ∘ (fun r : FileCacheRecord => if r.file_hash == h then
            { r with cache_expired_time := some t, update_time := u } else r))
      = (fun r : FileCacheRecord => r.file_hash == h) := by
    funext r
    by_cases hr : r.file_hash = h
    · simp [hr]
    · simp [hr]
  unfold Db.find at hfind ⊢
  rw [List.find?_map, hp, hfind]
  have hrec := List.find?_some hfind
  simp only [] at hrec
  simp [hrec]
  intro hc
  exact absurd (by simpa using hrec) hc

/-- C7: `refresh` on a path whose hash has a record returns `True` and
rewrites that record's expiry to `now + extendSeconds` (and its
`update_time`), whatever the previous expiry was, leaving its messages
and every other row untouched; on a path whose hash has no record it
returns `False` and the table is unchanged — nothing is created. -/
theorem refresh_cache_spec (fs : Fs) (now : Int) (db : Db) (file_path : String) (d : Int) :
    (∀ rec, Db.find db (fs.hash file_path) = some rec →
      (refresh_cache fs now db file_path d).1 = true
      ∧ Db.find (refresh_cache fs now db file_path d).2 (fs.hash file_path)
          = some { rec with cache_expired_time := some (now + d), update_time := now }
      ∧ ∀ r ∈ db, (r.file_hash == fs.hash file_path) = false →
          r ∈ (refresh_cache fs now db file_path d).2)
    ∧ (Db.find db (fs.hash file_path) = none →
        refresh_cache fs now db file_path d = (false, db)) := by
  constructor
  · intro rec hfind
    refine ⟨?_, ?_, ?_⟩
    · simp [refresh_cache, hfind]
    · have h2 := find_map_refresh db (fs.hash file_path) (now + d) now rec hfind
      simpa [refresh_cache, hfind] using h2
    · intro r hr hne
      have hfix : (fun r => if r.file_hash == fs.hash file_path then
          { r with cache_expired_time := some (now + d), update_time := now } else r) r = r := by
        simp [hne]
      simp only [refresh_cache, hfind]
      rw [← hfix]
      exact List.mem_map_of_mem _ hr
  · intro h
    simp [refresh_cache, h]

/-- Witness for C7 on a two-row table: the targeted row gets expiry
`9 + 40 = 49`, the unrelated row survives, and a table without the key
is returned unchanged with `False`. -/
theorem refresh_cache_spec_witness :
    (refresh_cache fs1 9 db7 "f" 40).1 = true
    ∧ Db.find (refresh_cache fs1 9 db7 "f" 40).2 "h"
        = some { rec1 with cache_expired_time := some 49, update_time := 9 }
    ∧ rec7 ∈ (refresh_cache fs1 9 db7 "f" 40).2
    ∧ refresh_cache fs1 9 [rec7] "f" 40 = (false, [rec7]) := by
  have h := (refresh_cache_spec fs1 9 db7 "f" 40).1 rec1 (by decide)
  refine ⟨h.1, ?_, h.2.2 rec7 (by decide) (by decide),
    (refresh_cache_spec fs1 9 [rec7] "f" 40).2 (by decide)⟩
  simpa using h.2.1

/-- The dedup scan only ever keeps elements of its input, in order. -/
theorem dedup_loop_sublist (xs : List SessionMsg) :
    ∀ seen, (dedup_loop xs seen).Sublist xs := by
  induction xs with
  | nil => intro seen; simp [dedup_loop]
  | cons m rest ih =>
    intro seen
    by_cases hm : m.content ∈ seen
    · simp only [dedup_loop, if_pos hm]
      exact (ih seen).cons m
    · simp only [dedup_loop, if_neg hm]
      exact (ih _).cons₂ m

/-- A content already seen never reappears in the scan's output. -/
theorem dedup_loop_count_of_mem_seen (xs : List SessionMsg) :
    ∀ seen c, c ∈ seen → count_content (dedup_loop xs seen) c = 0 := by
  induction xs with
  | nil => intro seen c _; rfl
  | cons m rest ih =>
    intro seen c hc
    by_cases hm : m.content ∈ seen
    · simp only [dedup_loop, if_pos hm]
      exact ih seen c hc
    · have hne : (m.content == c) = false := by
        have h2 : m.content ≠ c := fun he => hm (he ▸ hc)
        simpa using h2
      simp only [dedup_loop, if_neg hm, count_content, List.filter_cons, hne, if_false]
      have h3 := ih (m.content :: seen) c (List.mem_cons_of_mem _ hc)
      simpa [count_content] using h3

/-- For a not-yet-seen content, the scan keeps exactly one occurrence
when the input has any, none otherwise. -/
theorem dedup_loop_count_of_not_mem_seen (xs : List SessionMsg) :
    ∀ seen c, c ∉ seen →
      count_content (dedup_loop xs seen) c = min 1 (count_content xs c) := by
  induction xs with
  | nil => intro seen c _; simp [dedup_loop, count_content]
  | cons m rest ih =>
    intro seen c hc
    by_cases hm : m.content ∈ seen
    · have hne : (m.content == c) = false := by
        have h2 : m.content ≠ c := fun he => hc (he ▸ hm)
        simpa using h2
      simp only [dedup_loop, if_pos hm, count_content, List.filter_cons, hne, if_false]
      simpa [count_content] using ih seen c hc
    · by_cases hmc : m.content = c
      · subst hmc
        simp only [dedup_loop, if_neg hm, count_content, List.filter_cons,
          beq_self_eq_true, if_true, List.length_cons]
        have h0 := dedup_loop_count_of_mem_seen rest (m.content :: seen) m.content
          (List.mem_cons_self _ _)
        simp only [count_content] at h0
        rw [h0]
        omega
      · have hne : (m.content == c) = false := by simpa using hmc
        have hcc : c ∉ m.content :: seen := by
          intro hcc
          rcases List.mem_cons.mp hcc with h1 | h1
          · exact hmc h1.symm
          · exact hc h1
        simp only [dedup_loop, if_neg hm, count_content, List.filter_cons, hne, if_false]
        simpa [count_content] using ih (m.content :: seen) c hcc

/-- For a not-yet-seen content, the first occurrence the scan keeps is
the first occurrence of the input. -/
theorem dedup_loop_find (xs : List SessionMsg) :
    ∀ seen c, c ∉ seen →
      (dedup_loop xs seen).find? (fun m => m.content == c)
        = xs.find? (fun m => m.content == c) := by
  induction xs with
  | nil => intro seen c _; rfl
  | cons m rest ih =>
    intro seen c hc
    by_cases hm : m.content ∈ seen
    · have hne : (m.content == c) = false := by
        have h2 : m.content ≠ c := fun he => hc (he ▸ hm)
        simpa using h2
      simp only [dedup_loop, if_pos hm, List.find?_cons, hne]
      exact ih seen c hc
    · by_cases hmc : m.content = c
      · subst hmc
        simp only [dedup_loop, if_neg hm, List.find?_cons, beq_self_eq_true]
      · have hne : (m.content == c) = false := by simpa using hmc
        have hcc : c ∉ m.content :: seen := by
          intro hcc
          rcases List.mem_cons.mp hcc with h1 | h1
          · exact hmc h1.symm
          · exact hc h1
        simp only [dedup_loop, if_neg hm, List.find?_cons, hne]
        exact ih _ c hcc

/-- On an input whose contents are pairwise distinct and disjoint from
`seen`, the scan removes nothing. -/
theorem dedup_loop_of_nodup (xs : List SessionMsg) :
    ∀ seen, (xs.map (fun m => m.content)).Nodup →
      (∀ m ∈ xs, m.content ∉ seen) → dedup_loop xs seen = xs := by
  induction xs with
  | nil => intro seen _ _; rfl
  | cons m rest ih =>
    intro seen hnd hdisj
    have hm : m.content ∉ seen := hdisj m (List.mem_cons_self m rest)
    simp only [dedup_loop, if_neg hm]
    congr 1
    rw [List.map_cons] at hnd
    have hnd2 := List.nodup_cons.mp hnd
    apply ih
    · exact hnd2.2
    · intro x hx hmem
      rcases List.mem_cons.mp hmem with h1 | h1
      · exact hnd2.1 (h1 ▸ List.mem_map_of_mem _ hx)
      · exact hdisj x (List.mem_cons_of_mem _ hx) h1

/-- Content counts are invariant under reversal. -/
theorem count_content_reverse (l : List SessionMsg) (c : String) :
    count_content l.reverse c = count_content l c := by
  simp [count_content, List.filter_reverse]

/-- A content occurring in the list has a positive count. -/
theorem count_content_pos_of_mem {l : List SessionMsg} {c : String}
    (h : c ∈ l.map (fun m => m.content)) : 0 < count_content l c := by
  obtain ⟨m, hm, hc⟩ := List.mem_map.mp h
  have h2 : m ∈ l.filter (fun m => m.content == c) :=
    List.mem_filter.mpr ⟨hm, by simp [hc]⟩
  exact List.length_pos_of_mem h2

/-- The surviving non-system messages form a subsequence of the
non-system input. -/
theorem uniq_sublist_others (messages : List SessionMsg) :
    ((dedup_loop (messages.filter (fun m => m.role != "system")).reverse []).reverse).Sublist
      (messages.filter (fun m => m.role != "system")) := by
  simpa using (dedup_loop_sublist
    (messages.filter (fun m => m.role != "system")).reverse []).reverse

/-- Deduplication leaves the system messages exactly as filtered from
the input. -/
theorem dedup_messages_filter_system (messages : List SessionMsg) :
    (deduplicate_messages messages).1.filter (fun m => m.role == "system")
      = messages.filter (fun m => m.role == "system") := by
  have h1 : (messages.filter (fun m => m.role == "system")).filter
      (fun m => m.role == "system") = messages.filter (fun m => m.role == "system") :=
    List.filter_eq_self.mpr (fun m hm => (List.mem_filter.mp hm).2)
  have h2 : ((dedup_loop (messages.filter (fun m => m.role != "system")).reverse
      []).reverse).filter (fun m => m.role == "system") = [] := by
    rw [List.filter_eq_nil_iff]
    intro m hm
    have h3 := (List.mem_filter.mp ((uniq_sublist_others messages).subset hm)).2
    simpa [bne] using h3
  calc (deduplicate_messages messages).1.filter (fun m => m.role == "system")
      = (messages.filter (fun m => m.role == "system")
          ++ (dedup_loop (messages.filter (fun m => m.role != "system")).reverse
              []).reverse).filter (fun m => m.role == "system") := rfl
    _ = messages.filter (fun m => m.role == "system") := by
        rw [List.filter_append, h1, h2, List.append_nil]

/-- The non-system part of a deduplicated list is exactly the list of
survivors. -/
theorem dedup_messages_filter_other (messages : List SessionMsg) :
    (deduplicate_messages messages).1.filter (fun m => m.role != "system")
      = (dedup_loop (messages.filter (fun m => m.role != "system")).reverse []).reverse := by
  have h1 : (messages.filter (fun m => m.role == "system")).filter
      (fun m => m.role != "system") = [] := by
    rw [List.filter_eq_nil_iff]
    intro m hm
    have h3 := (List.mem_filter.mp hm).2
    simpa [bne] using h3
  have h2 : ((dedup_loop (messages.filter (fun m => m.role != "system")).reverse
      []).reverse).filter (fun m => m.role != "system")
      = (dedup_loop (messages.filter (fun m => m.role != "system")).reverse []).reverse :=
    List.filter_eq_self.mpr
      (fun m hm => (List.mem_filter.mp ((uniq_sublist_others messages).subset hm)).2)
  calc (deduplicate_messages messages).1.filter (fun m => m.role != "system")
      = (messages.filter (fun m => m.role == "system")
          ++ (dedup_loop (messages.filter (fun m => m.role != "system")).reverse
              []).reverse).filter (fun m => m.role != "system") := rfl
    _ = (dedup_loop (messages.filter (fun m => m.role != "system")).reverse []).reverse := by
        rw [List.filter_append, h1, h2, List.nil_append]

/-- When the non-system contents are pairwise distinct, deduplication
removes nothing: system messages followed by all non-system messages. -/
theorem dedup_messages_of_nodup (messages : List SessionMsg)
    (hnd : ((messages.filter (fun m => m.role != "system")).map
        (fun m => m.content)).Nodup) :
    (deduplicate_messages messages).1
      = messages.filter (fun m => m.role == "system")
        ++ messages.filter (fun m => m.role != "system") := by
  have hndrev : (((messages.filter (fun m => m.role != "system")).reverse).map
      (fun m => m.content)).Nodup := by
    rw [List.map_reverse]
    exact List.nodup_reverse.mpr hnd
  have hid := dedup_loop_of_nodup (messages.filter (fun m => m.role != "system")).reverse []
    hndrev (by simp)
  calc (deduplicate_messages messages).1
      = messages.filter (fun m => m.role == "system")
        ++ (dedup_loop (messages.filter (fun m => m.role != "system")).reverse []).reverse :=
        rfl
    _ = messages.filter (fun m => m.role == "system")
        ++ messages.filter (fun m => m.role != "system") := by
        rw [hid, List.reverse_reverse]

/-- C4: `_deduplicate_messages` returns the system messages (all of
them, in order) followed by the surviving non-system messages; the
survivors are a subsequence of the non-system input (so relative and
chronological order is preserved), each content occurring among the
non-system input survives exactly once, and scanning from most recent
to oldest the survivor found for a content is the same message the
input's most-recent-first scan finds — the chronologically last
occurrence.  System messages are never deduplicated or dropped. -/
theorem deduplicate_messages_spec (messages : List SessionMsg) :
    (deduplicate_messages messages).1
      = messages.filter (fun m => m.role == "system")
        ++ (dedup_loop (messages.filter (fun m => m.role != "system")).reverse []).reverse
    ∧ ((dedup_loop (messages.filter (fun m => m.role != "system")).reverse []).reverse).Sublist
        (messages.filter (fun m => m.role != "system"))
    ∧ (∀ c, c ∈ (messages.filter (fun m => m.role != "system")).map (fun m => m.content) →
        count_content
          ((dedup_loop (messages.filter (fun m => m.role != "system")).reverse []).reverse) c
          = 1)
    ∧ (∀ c, (dedup_loop (messages.filter (fun m => m.role != "system")).reverse []).find?
          (fun m => m.content == c)
        = (messages.filter (fun m => m.role != "system")).reverse.find?
            (fun m => m.content == c))
    ∧ (deduplicate_messages messages).1.filter (fun m => m.role == "system")
      = messages.filter (fun m => m.role == "system") := by
  have hsub := uniq_sublist_others messages
  refine ⟨rfl, hsub, ?_, ?_, ?_⟩
  · intro c hcmem
    rw [count_content_reverse,
      dedup_loop_count_of_not_mem_seen
        (messages.filter (fun m => m.role != "system")).reverse [] c (by simp),
      count_content_reverse]
    have hpos := count_content_pos_of_mem hcmem
    omega
  · intro c
    exact dedup_loop_find (messages.filter (fun m => m.role != "system")).reverse [] c
      (by simp)
  · exact dedup_messages_filter_system messages

/-- Witness for C4 on `ms4`: the duplicated content `"a"` survives once,
as its chronologically last occurrence (timestamp 3), survivors stay in
order, and the system message is kept. -/
theorem deduplicate_messages_spec_witness :
    (deduplicate_messages ms4).1
      = [msg "system" "sys",
         { role := "user", content := "b", timestamp := some 2 },
         { role := "user", content := "a", timestamp := some 3 },
         { role := "user", content := "c", timestamp := some 4 }]
    ∧ count_content
        ((dedup_loop (ms4.filter (fun m => m.role != "system")).reverse []).reverse) "a"
        = 1 :=
  ⟨by decide, (deduplicate_messages_spec ms4).2.2.1 "a" (by decide)⟩

/-- The two role filters partition a message list. -/
theorem length_filter_partition (l : List SessionMsg) :
    (l.filter (fun m => m.role == "system")).length
      + (l.filter (fun m => m.role != "system")).length = l.length := by
  induction l with
  | nil => rfl
  | cons a l ih =>
    by_cases h : (a.role == "system") = true
    · have h2 : (a.role != "system") = false := by simp [bne, h]
      simp [List.filter_cons, h, h2]
      omega
    · have h1 : (a.role == "system") = false := by simpa using h
      have h2 : (a.role != "system") = true := by simp [bne, h1]
      simp [List.filter_cons, h1, h2]
      omega

/-- Length of a Python `l[-n:]` slice. -/
theorem take_last_length (n : Nat) (l : List SessionMsg) :
    (take_last n l).length = min n l.length := by
  simp [take_last]
  omega

/-- `l[-n:]` only contains elements of `l`. -/
theorem take_last_subset (n : Nat) (l : List SessionMsg) :
    ∀ m ∈ take_last n l, m ∈ l := by
  intro m hm
  exact List.mem_of_mem_drop hm

/-- Below the cap, the cleanup body just deduplicates. -/
theorem clean_session_messages_of_le (max_messages : Nat) (ms : List SessionMsg)
    (h : ¬((deduplicate_messages ms).1.length > max_messages)) :
    clean_session_messages max_messages ms = deduplicate_messages ms := by
  simp only [clean_session_messages, if_neg h]

/-- Above the cap, the cleanup body truncates the deduplicated list. -/
theorem clean_session_messages_of_gt (max_messages : Nat) (ms : List SessionMsg)
    (h : (deduplicate_messages ms).1.length > max_messages) :
    (clean_session_messages max_messages ms).1
      = (deduplicate_messages ms).1.filter (fun m => m.role == "system")
        ++ (if (max_messages : Int)
              - ((deduplicate_messages ms).1.filter (fun m => m.role == "system")).length > 0
            then take_last ((max_messages : Int)
                - ((deduplicate_messages ms).1.filter
                    (fun m => m.role == "system")).length).toNat
                ((deduplicate_messages ms).1.filter (fun m => m.role != "system"))
            else []) := by
  simp only [clean_session_messages, if_pos h]

/-- The cleanup body never keeps more than
`max(maxMessages, systemCount)` messages. -/
theorem clean_session_messages_length (max_messages : Nat) (ms : List SessionMsg) :
    (clean_session_messages max_messages ms).1.length
      ≤ max max_messages (ms.filter (fun m => m.role == "system")).length := by
  by_cases h : (deduplicate_messages ms).1.length > max_messages
  · rw [clean_session_messages_of_gt max_messages ms h, List.length_append,
      dedup_messages_filter_system ms]
    by_cases hk : (max_messages : Int)
        - ((ms.filter (fun m => m.role == "system")).length : Int) > 0
    · rw [if_pos hk, take_last_length]
      have hmax := le_max_left max_messages
        (ms.filter (fun m => m.role == "system")).length
      omega
    · rw [if_neg hk]
      simp only [List.length_nil, Nat.add_zero]
      exact le_max_right max_messages (ms.filter (fun m => m.role == "system")).length
  · rw [clean_session_messages_of_le max_messages ms h]
    exact le_trans (Nat.le_of_not_lt h)
      (le_max_left max_messages (ms.filter (fun m => m.role == "system")).length)

/-- The cleanup body keeps every system message, in order. -/
theorem clean_session_messages_filter_system (max_messages : Nat) (ms : List SessionMsg) :
    (clean_session_messages max_messages ms).1.filter (fun m => m.role == "system")
      = ms.filter (fun m => m.role == "system") := by
  by_cases h : (deduplicate_messages ms).1.length > max_messages
  · rw [clean_session_messages_of_gt max_messages ms h, List.filter_append]
    have h1 : ((deduplicate_messages ms).1.filter (fun m => m.role == "system")).filter
        (fun m => m.role == "system")
        = (deduplicate_messages ms).1.filter (fun m => m.role == "system") :=
      List.filter_eq_self.mpr (fun m hm => (List.mem_filter.mp hm).2)
    have h2 : ∀ kept : List SessionMsg, (∀ m ∈ kept, m ∈ (deduplicate_messages ms).1.filter
        (fun m => m.role != "system")) →
        kept.filter (fun m => m.role == "system") = [] := by
      intro kept hk
      rw [List.filter_eq_nil_iff]
      intro m hm
      have h3 := (List.mem_filter.mp (hk m hm)).2
      simpa [bne] using h3
    by_cases hk : (max_messages : Int)
        - (((deduplicate_messages ms).1.filter (fun m => m.role == "system")).length : Int) > 0
    · rw [if_pos hk, h1, h2 _ (take_last_subset _ _), List.append_nil]
      exact dedup_messages_filter_system ms
    · rw [if_neg hk, h1, List.filter_nil, List.append_nil]
      exact dedup_messages_filter_system ms
  · rw [clean_session_messages_of_le max_messages ms h]
    exact dedup_messages_filter_system ms

/-- On duplicate-free non-system contents above the cap, the cleanup
body keeps the system messages plus exactly the last
`maxMessages - systemCount` non-system messages. -/
theorem clean_session_messages_of_nodup (max_messages : Nat) (ms : List SessionMsg)
    (hnd : ((ms.filter (fun m => m.role != "system")).map (fun m => m.content)).Nodup)
    (hgt : ms.length > max_messages) :
    (clean_session_messages max_messages ms).1
      = ms.filter (fun m => m.role == "system")
        ++ take_last (max_messages - (ms.filter (fun m => m.role == "system")).length)
            (ms.filter (fun m => m.role != "system")) := by
  have hded := dedup_messages_of_nodup ms hnd
  have hlen : (deduplicate_messages ms).1.length = ms.length := by
    rw [hded, List.length_append, length_filter_partition]
  have hgt2 : (deduplicate_messages ms).1.length > max_messages := by rw [hlen]; exact hgt
  rw [clean_session_messages_of_gt max_messages ms hgt2, dedup_messages_filter_system ms]
  have hoth : (deduplicate_messages ms).1.filter (fun m => m.role != "system")
      = ms.filter (fun m => m.role != "system") := by
    rw [dedup_messages_filter_other ms]
    have hndrev : (((ms.filter (fun m => m.role != "system")).reverse).map
        (fun m => m.content)).Nodup := by
      rw [List.map_reverse]
      exact List.nodup_reverse.mpr hnd
    rw [dedup_loop_of_nodup (ms.filter (fun m => m.role != "system")).reverse [] hndrev
      (by simp), List.reverse_reverse]
  rw [hoth]
  by_cases hk : (max_messages : Int)
      - ((ms.filter (fun m => m.role == "system")).length : Int) > 0
  · rw [if_pos hk]
    have htn : ((max_messages : Int)
        - ((ms.filter (fun m => m.role == "system")).length : Int)).toNat
        = max_messages - (ms.filter (fun m => m.role == "system")).length := by omega
    rw [htn]
  · rw [if_neg hk]
    have h0 : max_messages - (ms.filter (fun m => m.role == "system")).length = 0 := by
      omega
    rw [h0]
    simp [take_last]

/-- A surviving (non-idle) session appears in the cleaned table with
its message list rewritten by the cleanup body. -/
theorem clear_expired_sessions_mem (now expire_seconds : Int) (max_messages : Nat) :
    ∀ (sessions : List (String × Session)) (user_id : String) (s : Session),
      (user_id, s) ∈ sessions → ¬(now - s.last_active_time > expire_seconds) →
      (user_id, { s with messages := (clean_session_messages max_messages s.messages).1 })
        ∈ (clear_expired_sessions now expire_seconds max_messages sessions).1 := by
  intro sessions
  induction sessions with
  | nil =>
    intro user_id s h _
    exact absurd h (List.not_mem_nil _)
  | cons p rest ih =>
    intro user_id s hmem hlive
    rcases List.mem_cons.mp hmem with h1 | h1
    · have h2 : p = (user_id, s) := h1.symm
      subst h2
      simp only [clear_expired_sessions, if_neg hlive]
      exact List.mem_cons_self _ _
    · have ihh := ih user_id s h1 hlive
      by_cases hp : now - p.2.last_active_time > expire_seconds
      · simp only [clear_expired_sessions, if_pos hp]
        exact ihh
      · simp only [clear_expired_sessions, if_neg hp]
        exact List.mem_cons_of_mem _ ihh

/-- C5: a non-idle session processed by `clear_expired_sessions` ends
with its messages rewritten by the dedup-then-truncate body; the
resulting count is at most `max(maxMessages, systemCount)`, all system
messages survive in order, and when the non-system contents are
duplicate-free and the session exceeds the cap the retained non-system
messages are exactly the most recent `maxMessages - systemCount` ones
(none when `systemCount ≥ maxMessages`). -/
theorem clear_expired_sessions_spec
    (now expire_seconds : Int) (max_messages : Nat)
    (sessions : List (String × Session)) (user_id : String) (s : Session)
    (hmem : (user_id, s) ∈ sessions)
    (hlive : ¬(now - s.last_active_time > expire_seconds)) :
    (user_id, { s with messages := (clean_session_messages max_messages s.messages).1 })
      ∈ (clear_expired_sessions now expire_seconds max_messages sessions).1
    ∧ (clean_session_messages max_messages s.messages).1.length
        ≤ max max_messages (s.messages.filter (fun m => m.role == "system")).length
    ∧ (clean_session_messages max_messages s.messages).1.filter
        (fun m => m.role == "system")
        = s.messages.filter (fun m => m.role == "system")
    ∧ (((s.messages.filter (fun m => m.role != "system")).map
          (fun m => m.content)).Nodup →
        s.messages.length > max_messages →
        (clean_session_messages max_messages s.messages).1
          = s.messages.filter (fun m => m.role == "system")
            ++ take_last
                (max_messages - (s.messages.filter (fun m => m.role == "system")).length)
                (s.messages.filter (fun m => m.role != "system"))) :=
  ⟨clear_expired_sessions_mem now expire_seconds max_messages sessions user_id s hmem hlive,
   clean_session_messages_length max_messages s.messages,
   clean_session_messages_filter_system max_messages s.messages,
   fun hnd hgt => clean_session_messages_of_nodup max_messages s.messages hnd hgt⟩

/-- Witness for C5: the spec scenario — 2 system messages,
`maxMessages = 5`, 10 duplicate-free non-system messages — ends with
exactly the 2 system messages plus the 3 most recent non-system ones. -/
theorem clear_expired_sessions_spec_witness :
    ("u", { s5 with messages := (clean_session_messages 5 s5.messages).1 })
      ∈ (clear_expired_sessions 1000 259200 5 [("u", s5)]).1
    ∧ (clean_session_messages 5 s5.messages).1
      = [msg "system" "s1", msg "system" "s2",
         msg "user" "n8", msg "user" "n9", msg "user" "n10"] :=
  ⟨(clear_expired_sessions_spec 1000 259200 5 [("u", s5)] "u" s5
      (by decide) (by decide)).1,
   by decide⟩

/-- Witness for C10 on an empty table: a TTL of 0 stores a
non-expiring record, identical to omitting the TTL. -/
theorem set_cache_zero_ttl_witness :
    set_cache fs1 11 [] "f" [m1] none (some 0) none
      = set_cache fs1 11 [] "f" [m1] none none none
    ∧ Db.find (set_cache fs1 11 [] "f" [m1] none (some 0) none) "h"
      = some { file_hash := "h", file_path := "f", messages := [m1], cache_tag := none,
               cache_expired_time := none, cache_message := none,
               create_time := 11, update_time := 11 } := by
  exact ⟨(set_cache_zero_ttl fs1 11 [] "f" [m1] none none).1,
    (set_cache_zero_ttl fs1 11 [] "f" [m1] none none).2⟩

/-- C3: `add_temp_knowledge` cannot complete on either path.  On the
hit path it increments the session's `cache_hit_count`, and (the rate
1/1 exceeding 0.8) refreshes the cache record's expiry with twice the
requested TTL, but then evaluates `cache.get(...)` on the message list
and raises `AttributeError` instead of returning a file identifier.  On
the miss path it increments `cache_miss_count` but then calls
`set_cache` with keyword arguments it does not accept, raising
`TypeError` before anything is registered in the cache. -/
theorem add_temp_knowledge_always_raises :
    (add_temp_knowledge fs1 up0 "kf" "desc" 1000 st3 "u" "f" 3600).errOf
      = some "AttributeError: list object has no attribute get"
    ∧ Db.find (add_temp_knowledge fs1 up0 "kf" "desc" 1000 st3 "u" "f" 3600).stateOf.db "h"
      = some { rec1 with cache_expired_time := some 8200, update_time := 1000 }
    ∧ lookup_session
        (add_temp_knowledge fs1 up0 "kf" "desc" 1000 st3 "u" "f" 3600).stateOf.sessions "u"
      = some { s3 with cache_hit_count := 1 }
    ∧ (add_temp_knowledge fs1 up0 "kf" "desc" 1000 st3 "u" "g" 3600).errOf
      = some "TypeError: set_cache got an unexpected keyword argument file_id"
    ∧ lookup_session
        (add_temp_knowledge fs1 up0 "kf" "desc" 1000 st3 "u" "g" 3600).stateOf.sessions "u"
      = some { s3 with cache_miss_count := 1 } := by
  have hsession : get_session fs1 up0 "kf" "desc" 1000 st3 "u" = .ok (s3, false) st3 := by
    decide
  have hget_f : get_cache fs1 up0 1000 st3.db "f" = (.msgs [m1], st3.db) := by decide
  have hq : ({ s3 with cache_hit_count := s3.cache_hit_count + 1 } : Session).get_cache_hit_rate
      > (4 / 5 : ℚ) := by
    norm_num [Session.get_cache_hit_rate, s3]
  have hA : add_temp_knowledge fs1 up0 "kf" "desc" 1000 st3 "u" "f" 3600
      = .exn "AttributeError: list object has no attribute get"
          { sessions := [("u", { s3 with cache_hit_count := 1 })],
            db := [{ rec1 with cache_expired_time := some 8200, update_time := 1000 }],
            last_cleanup := 1000 } := by
    simp only [add_temp_knowledge, hsession, hget_f]
    rw [if_pos hq]
    decide
  have hB : add_temp_knowledge fs1 up0 "kf" "desc" 1000 st3 "u" "g" 3600
      = .exn "TypeError: set_cache got an unexpected keyword argument file_id"
          { sessions := [("u", { s3 with cache_miss_count := 1 })],
            db := db1, last_cleanup := 1000 } := by decide
  refine ⟨?_, ?_, ?_, ?_, ?_⟩
  · rw [hA]; rfl
  · rw [hA]; decide
  · rw [hA]; decide
  · rw [hB]; rfl
  · rw [hB]; decide

end Kimi
